import Mathlib

/-!
# role-bot: a shallow embedding of `role-bot.go`

The development models the reaction-role engine of `role-bot.go`:

* `parseEmoji`, `buildRoleMessage` : the pure helpers;
* `ensureRoleMessage` : the reconciler, as a function of the outcomes of the
  platform calls it makes, returning the updated shared config and the
  sequence of calls it issued;
* `onReactionAdd`, `onReactionRemove` : the two event handlers;
* `watchConfig` : the hot-reload loop with its debounce.

Go strings are byte sequences, so a string is modelled as a list of bytes:
indexing, slicing and `len` in the source all count bytes.  A run-time panic
(the only one reachable is the slice-bounds check in `parseEmoji`) is modelled
explicitly: `parseEmoji` returns `none`, and every caller records that it was
aborted by the panic together with the calls it had issued before.  The ends of
the process by `log.Fatalf` and `os.Exit` are modelled in the same way: in
`configPath`, reached from `ensureRoleMessage` through `SaveConfig("")`, and in
`LoadConfig`, reached from `watchConfig`.
Log output is not modelled.
-/

set_option maxRecDepth 100000

namespace RoleBot

/-! ## Strings -/

/-- A Go `string`: an immutable sequence of bytes. -/
abbrev GoString := List UInt8

/-- The bytes of a source-level string literal (Go source text is UTF-8). -/
def utf8 (s : String) : GoString := s.data.flatMap String.utf8EncodeChar

/-- The byte `'<'`. -/
def byteLt : UInt8 := 60

/-- The byte `':'`. -/
def byteColon : UInt8 := 58

/-- The byte `'>'`. -/
def byteGt : UInt8 := 62

/-- The Go slice expression `s[lo:hi]` on a string; `none` is the run-time panic
"slice bounds out of range", raised unless `lo ≤ hi ≤ len(s)`. -/
def slice (s : GoString) (lo hi : Nat) : Option GoString :=
  if lo ≤ hi ∧ hi ≤ s.length then some ((s.take hi).drop lo) else none

/-- The call `strings.Split(s, sep)` for a one-byte separator: the pieces of `s`
between consecutive occurrences of `sep`; a string without `sep` (the empty
string included) yields the one-element result `[s]`. -/
def split (sep : UInt8) : GoString → List GoString
  | [] => [[]]
  | c :: cs =>
    if c = sep then [] :: split sep cs
    else
      match split sep cs with
      | [] => [[c]]
      | p :: ps => (c :: p) :: ps

/-! ## Data model -/

/-- Go `RoleEntry`. -/
structure RoleEntry where
  emoji : GoString
  roleID : GoString
  label : GoString
  deriving DecidableEq, Repr

/-- Go `ChannelConfig`. -/
structure ChannelConfig where
  channelID : GoString
  messageID : GoString
  roles : List RoleEntry
  deriving DecidableEq, Repr

/-- Go `BotConfig`. -/
structure BotConfig where
  botToken : GoString
  channels : List ChannelConfig
  deriving DecidableEq, Repr

/-! ## Pure helpers -/

/-- Go `parseEmoji`.  `none` is the panic of `e[1 : len(e)-1]`. -/
def parseEmoji (e : GoString) : Option (GoString × GoString) :=
  if 0 < e.length ∧ e.head? = some byteLt then
    match slice e 1 (e.length - 1) with
    | none => none
    | some trimmed =>
      match split byteColon trimmed with
      | [_, p1, p2] => some (p1, p2)
      | _ => some (e, [])
  else some (e, [])

/-- The line `fmt.Sprintf("%s → %s\n", r.Emoji, r.Label)`; the verb `%s` copies
the bytes of its argument. -/
def roleLine (r : RoleEntry) : GoString :=
  r.emoji ++ utf8 " → " ++ r.label ++ utf8 "\n"

/-- Go `buildRoleMessage`: the `strings.Builder` is the accumulator of the
loop over `cfg.Roles`. -/
def buildRoleMessage (cfg : ChannelConfig) : GoString :=
  if cfg.roles.length = 0 then utf8 "No roles configured yet."
  else
    cfg.roles.foldl (fun b r => b ++ roleLine r)
      ([] ++ utf8 "React to assign or remove roles:\n\n")

/-! ## Platform calls -/

/-- The fields of `discordgo.Emoji` read by the program. -/
structure Emoji where
  id : GoString
  name : GoString
  deriving DecidableEq, Repr

/-- The fields of `discordgo.MessageReaction`, the payload shared by the
reaction-added and reaction-removed events. -/
structure MessageReaction where
  userID : GoString
  messageID : GoString
  channelID : GoString
  guildID : GoString
  emoji : Emoji
  deriving DecidableEq, Repr

/-- One call made by the program on the chat session or on the config store,
with its arguments.  In `messageReactionRemove` the emoji argument of the source
is `r.Emoji.APIName()`, the library rendering of the event emoji; the call keeps
the event emoji itself.  `writeFile path c` is the call `os.WriteFile(path, data,
0644)` of `SaveConfig`, where `data` is the indented JSON encoding of the global
config `c`; `loadConfig` is `LoadConfig(activeConfigPath)`. -/
inductive Action where
  | channelMessageSend (channelID content : GoString)
  | channelMessageEdit (channelID messageID content : GoString)
  | messageReactionAdd (channelID messageID emoji : GoString)
  | messageReactionRemove (channelID messageID : GoString) (emoji : Emoji) (userID : GoString)
  | guildMemberRoleAdd (guildID userID roleID : GoString)
  | guildMemberRoleRemove (guildID userID roleID : GoString)
  | writeFile (path : GoString) (config : BotConfig)
  | loadConfig
  deriving DecidableEq, Repr

/-- What the environment answers to the calls of one `ensureRoleMessage`:
`create` is the result of `ChannelMessageSend` (`some id` carries `msg.ID`,
`none` is an error), `editOk` tells whether `ChannelMessageEdit` returned no
error, `reactionAddOk k` whether the `k`-th `MessageReactionAdd` did, and
`defaultPath` is the outcome of `configPath()`: `some p` when it returns the
path `p` (the join of the home directory with `.config/role-bot/config.json`),
`none` when `os.UserHomeDir` fails and `configPath` ends the process by
`log.Fatalf`.  The source discards the result of `MessageReactionAdd`, and uses
the result of the edit only to choose a log line. -/
structure Outcome where
  create : Option GoString
  editOk : Bool
  reactionAddOk : Nat → Bool
  defaultPath : Option GoString

/-- The observable result of running a handler: the global config afterwards,
the calls issued in order, and whether a panic cut the run short. -/
structure Run where
  config : BotConfig
  calls : List Action
  panicked : Bool
  deriving DecidableEq, Repr

/-- The observable result of running the reconciler: the global config
afterwards, the calls issued in order, whether a panic cut the run short, and
whether the process was ended by `log.Fatalf`. -/
structure EnsureRun where
  config : BotConfig
  calls : List Action
  panicked : Bool
  exited : Bool
  deriving DecidableEq, Repr

/-! ## Config store -/

/-- Go `SaveConfig(path)` run when the global config is `config`, with
`defaultPath` the outcome of `configPath()`.  An empty `path` is replaced by
the default path, and the process ends there (`none`) when `configPath` does
not return; otherwise the config is written to the resulting path.
(`json.MarshalIndent` does not fail on a `BotConfig`, which holds strings and
slices only, and the result of `os.WriteFile` is discarded.) -/
def SaveConfig (defaultPath : Option GoString) (path : GoString) (config : BotConfig) :
    Option Action :=
  if path = [] then
    match defaultPath with
    | none => none
    | some p => some (Action.writeFile p config)
  else some (Action.writeFile path config)

/-! ## Reconciler -/

/-- The loop `for _, r := range ch.Roles` of `ensureRoleMessage`, run on the
channel `ch` as it is when the loop starts; returns the calls issued and whether
`parseEmoji` panicked. -/
def attachReactions (ch : ChannelConfig) : List RoleEntry → List Action × Bool
  | [] => ([], false)
  | r :: rest =>
    match parseEmoji r.emoji with
    | none => ([], true)
    | some (name, id) =>
      let emoji := if id ≠ [] then utf8 "<:" ++ name ++ utf8 ":" ++ id ++ utf8 ">" else name
      let tail := attachReactions ch rest
      (Action.messageReactionAdd ch.channelID ch.messageID emoji :: tail.1, tail.2)

/-- Go `ensureRoleMessage(s, &config.Channels[i])`: both call sites pass a
pointer to an element of the global config, so the channel is given by its
index `i`, and the assignment `ch.MessageID = msg.ID` updates the global
config.  (An index outside `config.Channels`, which no call site produces, is
given the empty run.) -/
def ensureRoleMessage (o : Outcome) (config : BotConfig) (i : Nat) : EnsureRun :=
  match config.channels[i]? with
  | none => ⟨config, [], false, false⟩
  | some ch =>
    let content := buildRoleMessage ch
    if ch.messageID = [] then
      match o.create with
      | none => ⟨config, [Action.channelMessageSend ch.channelID content], false, false⟩
      | some id =>
        let ch1 : ChannelConfig := ⟨ch.channelID, id, ch.roles⟩
        let config1 : BotConfig := ⟨config.botToken, config.channels.set i ch1⟩
        match SaveConfig o.defaultPath [] config1 with
        | none => ⟨config1, [Action.channelMessageSend ch.channelID content], false, true⟩
        | some write =>
          let loop := attachReactions ch1 ch1.roles
          ⟨config1, Action.channelMessageSend ch.channelID content :: write :: loop.1, loop.2,
            false⟩
    else
      let loop := attachReactions ch ch.roles
      ⟨config, Action.channelMessageEdit ch.channelID ch.messageID content :: loop.1, loop.2,
        false⟩

/-- The iterations `i, i+1, ..., i+k-1` of the loop
`for i := range config.Channels { ensureRoleMessage(bot, &config.Channels[i]) }`;
`outcomes j` are the answers of the environment during iteration `j`.  The
loop stops with the process when an iteration panics or exits. -/
def ensureFrom (outcomes : Nat → Outcome) : Nat → Nat → BotConfig → EnsureRun
  | 0, _, config => ⟨config, [], false, false⟩
  | k + 1, i, config =>
    let r := ensureRoleMessage (outcomes i) config i
    if r.panicked = true ∨ r.exited = true then r
    else
      let rest := ensureFrom outcomes k (i + 1) r.config
      ⟨rest.config, r.calls ++ rest.calls, rest.panicked, rest.exited⟩

/-- The whole loop over `config.Channels`, as run by `main` and by
`watchConfig`. -/
def ensureAll (outcomes : Nat → Outcome) (config : BotConfig) : EnsureRun :=
  ensureFrom outcomes config.channels.length 0 config

/-! ## Event handlers -/

/-- How the inner loop over `ch.Roles` of a handler ends: a role matched, the
call was issued and the handler returned; or the loop ran to its end; or
`parseEmoji` panicked. -/
inductive RoleLoop where
  | returned (call : Action)
  | exhausted
  | panicked
  deriving DecidableEq, Repr

/-- The loop `for _, role := range ch.Roles` of `onReactionAdd`. -/
def onReactionAddRoles (r : MessageReaction) : List RoleEntry → RoleLoop
  | [] => RoleLoop.exhausted
  | role :: rest =>
    match parseEmoji role.emoji with
    | none => RoleLoop.panicked
    | some (name, id) =>
      if (id ≠ [] ∧ r.emoji.id = id) ∨ (id = [] ∧ r.emoji.name = name) then
        RoleLoop.returned (Action.guildMemberRoleAdd r.guildID r.userID role.roleID)
      else onReactionAddRoles r rest

/-- The loop `for _, ch := range config.Channels` of `onReactionAdd`; returns
the calls issued and whether the handler panicked. -/
def onReactionAddChannels (r : MessageReaction) : List ChannelConfig → List Action × Bool
  | [] => ([], false)
  | ch :: rest =>
    if r.channelID ≠ ch.channelID ∨ r.messageID ≠ ch.messageID then
      onReactionAddChannels r rest
    else
      match onReactionAddRoles r ch.roles with
      | RoleLoop.returned call => ([call], false)
      | RoleLoop.panicked => ([], true)
      | RoleLoop.exhausted =>
        let tail := onReactionAddChannels r rest
        (Action.messageReactionRemove ch.channelID ch.messageID r.emoji r.userID :: tail.1, tail.2)

/-- Go `onReactionAdd`. -/
def onReactionAdd (config : BotConfig) (r : MessageReaction) : Run :=
  let out := onReactionAddChannels r config.channels
  ⟨config, out.1, out.2⟩

/-- The loop `for _, role := range ch.Roles` of `onReactionRemove`. -/
def onReactionRemoveRoles (r : MessageReaction) : List RoleEntry → RoleLoop
  | [] => RoleLoop.exhausted
  | role :: rest =>
    match parseEmoji role.emoji with
    | none => RoleLoop.panicked
    | some (name, id) =>
      if (id ≠ [] ∧ r.emoji.id = id) ∨ (id = [] ∧ r.emoji.name = name) then
        RoleLoop.returned (Action.guildMemberRoleRemove r.guildID r.userID role.roleID)
      else onReactionRemoveRoles r rest

/-- The loop `for _, ch := range config.Channels` of `onReactionRemove`. -/
def onReactionRemoveChannels (r : MessageReaction) : List ChannelConfig → List Action × Bool
  | [] => ([], false)
  | ch :: rest =>
    if r.channelID ≠ ch.channelID ∨ r.messageID ≠ ch.messageID then
      onReactionRemoveChannels r rest
    else
      match onReactionRemoveRoles r ch.roles with
      | RoleLoop.returned call => ([call], false)
      | RoleLoop.panicked => ([], true)
      | RoleLoop.exhausted => onReactionRemoveChannels r rest

/-- Go `onReactionRemove`. -/
def onReactionRemove (config : BotConfig) (r : MessageReaction) : Run :=
  let out := onReactionRemoveChannels r config.channels
  ⟨config, out.1, out.2⟩

/-! ## Config watcher -/

/-- The largest `time.Duration`, in nanoseconds. -/
def maxDuration : Int := 9223372036854775807

/-- The smallest `time.Duration`, in nanoseconds. -/
def minDuration : Int := -9223372036854775808

/-- The constant `time.Second`, in nanoseconds. -/
def second : Int := 1000000000

/-- The call `time.Since(lastUpdate)` when the clock reads `now` nanoseconds.  A
recorded `lastUpdate` is `some t`, the clock reading stored by
`lastUpdate = time.Now()`; the difference saturates at the bounds of
`time.Duration`.  `none` is the zero `time.Time` of the declaration
`var lastUpdate time.Time`, which lies further in the past than a duration can
express, so the result saturates at the largest duration. -/
def timeSince (lastUpdate : Option Int) (now : Int) : Int :=
  match lastUpdate with
  | none => maxDuration
  | some t => max minDuration (min maxDuration (now - t))

/-- One value received from `watcher.Events`, together with what the
environment answers while it is handled: `nameIsConfig` is the value of
`filepath.Base(event.Name) == filepath.Base(activeConfigPath)`,
`opIsWriteCreateRename` the value of
`event.Op&(fsnotify.Write|fsnotify.Create|fsnotify.Rename) != 0`,
`sinceClock` the clock reading used by `time.Since(lastUpdate)`, `nowClock` the
reading returned by the following `time.Now()`, `loaded` the global config
after `LoadConfig(activeConfigPath)` (`none` when `LoadConfig` ends the process:
`log.Fatalf` on an unreadable or malformed file, `os.Exit(0)` after writing a
template for a missing one), and `outcomes i` the answers of the environment
during the reconciliation of channel `i`. -/
structure FsEvent where
  nameIsConfig : Bool
  opIsWriteCreateRename : Bool
  sinceClock : Int
  nowClock : Int
  loaded : Option BotConfig
  outcomes : Nat → Outcome

/-- What the loop did with an event: `ignored` when it is not a
write, create or rename of the config file, `debounced` when the
`continue` of the debounce test was taken, `accepted` otherwise. -/
inductive Verdict where
  | ignored
  | debounced
  | accepted
  deriving DecidableEq, Repr

/-- The state of the watch loop: the local `lastUpdate` and the global
config. -/
structure Watcher where
  lastUpdate : Option Int
  config : BotConfig
  deriving DecidableEq, Repr

/-- The result of handling one event: the state afterwards, the verdict, the
calls issued, and whether the process is still running (it is not after a
`LoadConfig` or a `SaveConfig` that ended it, or after a panic). -/
structure Step where
  watcher : Watcher
  verdict : Verdict
  calls : List Action
  running : Bool
  deriving DecidableEq, Repr

/-- The body of the `case event, ok := <-watcher.Events` branch of
`watchConfig`, for a received event. -/
def watchEvent (w : Watcher) (ev : FsEvent) : Step :=
  if ev.nameIsConfig = true ∧ ev.opIsWriteCreateRename = true then
    if timeSince w.lastUpdate ev.sinceClock < 2 * second then
      ⟨w, Verdict.debounced, [], true⟩
    else
      match ev.loaded with
      | none => ⟨⟨some ev.nowClock, w.config⟩, Verdict.accepted, [Action.loadConfig], false⟩
      | some config =>
        let r := ensureAll ev.outcomes config
        ⟨⟨some ev.nowClock, r.config⟩, Verdict.accepted, Action.loadConfig :: r.calls,
          !(r.panicked || r.exited)⟩
  else ⟨w, Verdict.ignored, [], true⟩

/-- The loop of Go `watchConfig` on the events it receives, one `Step` per
handled event; the loop ends with the process.  (A value received from
`watcher.Errors` is only logged and is left out.) -/
def watchLoop (w : Watcher) : List FsEvent → List Step
  | [] => []
  | ev :: rest =>
    let s := watchEvent w ev
    s :: (if s.running = true then watchLoop s.watcher rest else [])

/-- Go `watchConfig` after the watcher is set up: the loop started with the
zero `lastUpdate`. -/
def watchConfig (config : BotConfig) (events : List FsEvent) : List Step :=
  watchLoop ⟨none, config⟩ events

/-! ## Specification-side definitions

The definitions below restate notions used by the specification; they are what
the program is compared with. -/

/-- An event is on the tracked message of a channel. -/
def tracks (ch : ChannelConfig) (r : MessageReaction) : Bool :=
  decide (r.channelID = ch.channelID ∧ r.messageID = ch.messageID)

/-- A role entry matches the emoji of an event: with `(name, id)` the result of
`parseEmoji` on the entry, either `id` is non-empty and equals the custom-emoji
id of the event, or `id` is empty and `name` equals the emoji name of the event. -/
def entryMatches (role : RoleEntry) (r : MessageReaction) : Bool :=
  match parseEmoji role.emoji with
  | none => false
  | some (name, id) =>
    decide ((id ≠ [] ∧ r.emoji.id = id) ∨ (id = [] ∧ r.emoji.name = name))

/-- The emoji attached for a role entry: `<:name:id>` when `parseEmoji` gives a
non-empty id, otherwise the name. -/
def resolvedEmoji (e : GoString) : GoString :=
  match parseEmoji e with
  | none => []
  | some (name, id) =>
    if id = [] then name else utf8 "<:" ++ name ++ utf8 ":" ++ id ++ utf8 ">"

/-- The string is a custom-emoji tag `<:name:id>`: it starts with `<:`, ends with
`>`, and holds exactly two colons. -/
def isCustomTag (e : GoString) : Bool :=
  decide (e.take 2 = [byteLt, byteColon] ∧ e.getLast? = some byteGt ∧ e.count byteColon = 2)

/-- The reference rendering of a role list: the placeholder for an empty list,
otherwise the header followed by one line per entry. -/
def renderReference (roles : List (GoString × GoString)) : GoString :=
  match roles with
  | [] => utf8 "No roles configured yet."
  | _ :: _ =>
    utf8 "React to assign or remove roles:\n\n" ++
      (roles.map (fun p => p.1 ++ utf8 " → " ++ p.2 ++ utf8 "\n")).flatten

/-- The calls of a run that are of the create-message kind. -/
def isSend : Action → Bool
  | Action.channelMessageSend _ _ => true
  | _ => false

/-- The calls of a run that are message edits. -/
def isEdit : Action → Bool
  | Action.channelMessageEdit _ _ _ => true
  | _ => false

/-- The calls of a run that attach a reaction. -/
def isReactionAdd : Action → Bool
  | Action.messageReactionAdd _ _ _ => true
  | _ => false

/-- The calls of a run that grant a role. -/
def isGrant : Action → Bool
  | Action.guildMemberRoleAdd _ _ _ => true
  | _ => false

/-- The calls of a run that strip a reaction. -/
def isReactionRemove : Action → Bool
  | Action.messageReactionRemove _ _ _ _ => true
  | _ => false

/-- The path of a call that writes a config file. -/
def writtenPath : Action → Option GoString
  | Action.writeFile path _ => some path
  | _ => none

/-- The revoke call mirroring a grant call; other calls have no mirror. -/
def mirror : Action → Option Action
  | Action.guildMemberRoleAdd g u role => some (Action.guildMemberRoleRemove g u role)
  | _ => none

/-- The events of a watcher run that were accepted, in order. -/
def acceptedEvents (w : Watcher) (events : List FsEvent) : List FsEvent :=
  ((events.zip (watchLoop w events)).filter
    (fun p => decide (p.2.verdict = Verdict.accepted))).map Prod.fst

/-- The clock does not go back while an event is handled: `time.Now()` is read
after `time.Since`. -/
def clockMonotone (events : List FsEvent) : Prop :=
  ∀ e ∈ events, e.sinceClock ≤ e.nowClock

/-- No role entry of the config has the bare `<` as its emoji, the one string
on which `parseEmoji` panics. -/
def noBareLt (config : BotConfig) : Prop :=
  ∀ ch ∈ config.channels, ∀ x ∈ ch.roles, x.emoji ≠ [byteLt]

instance (config : BotConfig) : Decidable (noBareLt config) := by
  unfold noBareLt
  infer_instance

instance (events : List FsEvent) : Decidable (clockMonotone events) := by
  unfold clockMonotone
  infer_instance

/-- One reconciliation pass described call by call: the calls of
`ensureRoleMessage` on channel `i`, followed by those on channel `i+1` run on
the config left by the former, and so on for `k` channels. -/
def reconcilePass (outcomes : Nat → Outcome) : Nat → Nat → BotConfig → List Action
  | 0, _, _ => []
  | k + 1, i, config =>
    (ensureRoleMessage (outcomes i) config i).calls ++
      reconcilePass outcomes k (i + 1) (ensureRoleMessage (outcomes i) config i).config

/-- The state of the watch loop after it has handled the given events. -/
def watcherAfter (w : Watcher) : List FsEvent → Watcher
  | [] => w
  | ev :: rest => watcherAfter (watchEvent w ev).watcher rest

/-! ## Example inputs -/

/-- The tag of an animated custom emoji. -/
def animatedTag : GoString := utf8 "<a:name:id>"

/-- The literal emoji of the config template. -/
def fire : GoString := utf8 "🔥"

/-- A channel with two roles, used as an example for the renderer. -/
def exampleChannel : ChannelConfig :=
  ⟨utf8 "C1", utf8 "M1",
    [⟨fire, utf8 "R1", utf8 "Hot"⟩, ⟨utf8 "<:fire:123456>", utf8 "R2", utf8 "Custom"⟩]⟩

/-- The same roles as `exampleChannel` under other channel, message and role
ids. -/
def exampleChannelMoved : ChannelConfig :=
  ⟨utf8 "C2", [],
    [⟨fire, utf8 "R7", utf8 "Hot"⟩, ⟨utf8 "<:fire:123456>", utf8 "R8", utf8 "Custom"⟩]⟩

/-- A reaction with the literal fire emoji on message `M1` of channel `C1`. -/
def fireReaction : MessageReaction :=
  ⟨utf8 "U1", utf8 "M1", utf8 "C1", utf8 "G1", ⟨[], fire⟩⟩

/-- A reaction with a thumbs-up emoji on message `M1` of channel `C1`. -/
def thumbReaction : MessageReaction :=
  ⟨utf8 "U1", utf8 "M1", utf8 "C1", utf8 "G1", ⟨[], utf8 "👍"⟩⟩

/-- A config whose only channel lists the bare `<` before the fire emoji. -/
def brokenConfig : BotConfig :=
  ⟨utf8 "T", [⟨utf8 "C1", utf8 "M1",
    [⟨utf8 "<", utf8 "R0", utf8 "Broken"⟩, ⟨fire, utf8 "R1", utf8 "Hot"⟩]⟩]⟩

/-- A config with one channel and the two roles of `exampleChannel`. -/
def exampleConfig : BotConfig := ⟨utf8 "T", [exampleChannel]⟩

/-- A channel tracking message `M1` of channel `C1` without any role. -/
def emptyChannel : ChannelConfig := ⟨utf8 "C1", utf8 "M1", []⟩

/-- A config that lists the tracked message `M1` of channel `C1` twice: first
without roles, then with the roles of `exampleChannel`. -/
def doubledConfig : BotConfig := ⟨utf8 "T", [emptyChannel, exampleChannel]⟩

/-- A config whose only channel has no tracked message yet and one fire role. -/
def freshConfig : BotConfig :=
  ⟨utf8 "T", [⟨utf8 "C1", [], [⟨fire, utf8 "R1", utf8 "Hot"⟩]⟩]⟩

/-- The default config path of a user whose home directory is `/home/u`. -/
def homeConfigPath : GoString := utf8 "/home/u/.config/role-bot/config.json"

/-- The config path given to a bot started with `-config /tmp/x.json`. -/
def overridePath : GoString := utf8 "/tmp/x.json"

/-- Answers in which the creation of a message fails. -/
def createFails : Outcome := ⟨none, true, fun _ => true, some homeConfigPath⟩

/-- Answers in which the creation of a message returns the id `M1`, the edit of
a message fails, and the home directory is `/home/u`. -/
def createGivesM1 : Outcome := ⟨some (utf8 "M1"), false, fun _ => false, some homeConfigPath⟩

/-- Answers in which the creation of a message returns the id `M1` and the
home directory cannot be determined. -/
def createGivesM1NoHome : Outcome := ⟨some (utf8 "M1"), true, fun _ => true, none⟩

/-- The config of the end-to-end scenario: one channel without `message_id` and
the role `R1` under the thumbs-up emoji. -/
def thumbConfig : BotConfig :=
  ⟨utf8 "T", [⟨utf8 "C1", [], [⟨utf8 "👍", utf8 "R1", utf8 "Up"⟩]⟩]⟩

/-- The config `thumbConfig` once the message `M1` is tracked. -/
def thumbConfigM1 : BotConfig :=
  ⟨utf8 "T", [⟨utf8 "C1", utf8 "M1", [⟨utf8 "👍", utf8 "R1", utf8 "Up"⟩]⟩]⟩

/-- A write to the config file handled when the clock reads 1000 s, at which
`LoadConfig` ends the process. -/
def fatalWrite : FsEvent :=
  ⟨true, true, 1000 * second, 1000 * second + 5, none, fun _ => createGivesM1⟩

/-- A write to the config file handled when the clock reads 1000 s, which
reloads `freshConfig`. -/
def firstWrite : FsEvent :=
  ⟨true, true, 1000 * second, 1000 * second + 5, some freshConfig, fun _ => createGivesM1⟩

/-- A write to the config file handled one second after `firstWrite`. -/
def secondWrite : FsEvent :=
  ⟨true, true, 1001 * second, 1001 * second + 5, some freshConfig, fun _ => createGivesM1⟩

/-- A write to the config file handled three seconds after `firstWrite`. -/
def thirdWrite : FsEvent :=
  ⟨true, true, 1003 * second, 1003 * second + 5, some exampleConfig, fun _ => createGivesM1⟩

/-! ## Lemmas on strings -/

theorem split_ne_nil (sep : UInt8) (s : GoString) : split sep s ≠ [] := by
  induction s with
  | nil => simp [split]
  | cons c cs ih =>
    unfold split
    split_ifs
    · simp
    · split <;> simp

theorem split_of_not_mem (sep : UInt8) (s : GoString) (h : sep ∉ s) : split sep s = [s] := by
  induction s with
  | nil => simp [split]
  | cons c cs ih =>
    have hc : c ≠ sep := fun e => h (by simp [e])
    have hcs : sep ∉ cs := fun e => h (by simp [e])
    unfold split
    rw [if_neg hc, ih hcs]

theorem split_append_sep (sep : UInt8) (a b : GoString) (h : sep ∉ a) :
    split sep (a ++ sep :: b) = a :: split sep b := by
  induction a with
  | nil => simp [split]
  | cons c cs ih =>
    have hc : c ≠ sep := fun e => h (by simp [e])
    have hcs : sep ∉ cs := fun e => h (by simp [e])
    simp [split, hc, ih hcs]

theorem length_split (sep : UInt8) (s : GoString) :
    (split sep s).length = s.count sep + 1 := by
  induction s with
  | nil => simp [split]
  | cons c cs ih =>
    unfold split
    by_cases hc : c = sep
    · subst hc
      simp [ih]
    · rw [if_neg hc]
      have hne := split_ne_nil sep cs
      have hcount : (c :: cs).count sep = cs.count sep := by
        rw [List.count_cons]
        simp [hc]
      rw [hcount, ← ih]
      cases hs : split sep cs with
      | nil => exact absurd hs hne
      | cons p ps => simp

theorem slice_interior (c g : UInt8) (m : GoString) :
    slice (c :: (m ++ [g])) 1 ((c :: (m ++ [g])).length - 1) = some m := by
  have hlen : (c :: (m ++ [g])).length - 1 = m.length + 1 := by simp
  rw [hlen]
  unfold slice
  have hb : 1 ≤ m.length + 1 ∧ m.length + 1 ≤ (c :: (m ++ [g])).length := by
    constructor
    · omega
    · simp
  rw [if_pos hb]
  simp [List.take_succ_cons]

theorem parseEmoji_of_head_ne (e : GoString) (h : e.head? ≠ some byteLt) :
    parseEmoji e = some (e, []) := by
  unfold parseEmoji
  rw [if_neg]
  exact fun hc => h hc.2

theorem parseEmoji_of_interior (c : UInt8) (m : GoString) :
    parseEmoji (byteLt :: (m ++ [c])) =
      match split byteColon m with
      | [_, p1, p2] => some (p1, p2)
      | _ => some (byteLt :: (m ++ [c]), []) := by
  unfold parseEmoji
  rw [if_pos (by simp), slice_interior]

theorem parseEmoji_three_fields (c : UInt8) (a name id : GoString)
    (ha : byteColon ∉ a) (hname : byteColon ∉ name) (hid : byteColon ∉ id) :
    parseEmoji (byteLt :: (a ++ byteColon :: (name ++ byteColon :: id) ++ [c])) =
      some (name, id) := by
  rw [parseEmoji_of_interior, split_append_sep _ _ _ ha, split_append_sep _ _ _ hname,
    split_of_not_mem _ _ hid]

theorem parseEmoji_eq_none_iff (e : GoString) : parseEmoji e = none ↔ e = [byteLt] := by
  constructor
  · intro h
    cases e with
    | nil => simp [parseEmoji] at h
    | cons c cs =>
      by_cases hc : c = byteLt
      · subst hc
        rcases List.eq_nil_or_concat cs with hcs | ⟨m, g, hcs⟩
        · rw [hcs]
        · exfalso
          rw [hcs, List.concat_eq_append, parseEmoji_of_interior] at h
          split at h <;> simp at h
      · rw [parseEmoji_of_head_ne] at h
        · simp at h
        · simpa using hc
  · intro h
    subst h
    decide

theorem foldl_append_lines {α : Type} (f : α → GoString) (l : List α) (init : GoString) :
    l.foldl (fun b r => b ++ f r) init = init ++ (l.map f).flatten := by
  induction l generalizing init with
  | nil => simp
  | cons x xs ih => simp [ih, List.append_assoc]

theorem utf8_open : utf8 "<:" = [byteLt, byteColon] := by decide

theorem utf8_colon : utf8 ":" = [byteColon] := by decide

theorem utf8_close : utf8 ">" = [byteGt] := by decide

theorem match_fields_of_length_ne {β : Type} (l : List GoString) (f : GoString → GoString → β)
    (d : β) :
    l.length ≠ 3 →
    (match l with
      | [_, p1, p2] => f p1 p2
      | _ => d) = d := by
  intro h
  rcases l with _ | ⟨a, _ | ⟨b, _ | ⟨c, _ | ⟨x, t⟩⟩⟩⟩ <;> simp at h ⊢

theorem roleLine_eq :
    roleLine = fun r => r.emoji ++ (utf8 " → " ++ (r.label ++ utf8 "\n")) := by
  funext r
  simp [roleLine]

/-! ## The emoji resolver -/

/-- C4: for every name and id without a colon byte, `parseEmoji` applied to the
tag `<:name:id>` returns the pair of the name and the id. -/
theorem C4_parseEmoji_custom_tag (name id : GoString)
    (hname : byteColon ∉ name) (hid : byteColon ∉ id) :
    parseEmoji (utf8 "<:" ++ name ++ utf8 ":" ++ id ++ utf8 ">") = some (name, id) := by
  have h := parseEmoji_three_fields byteGt [] name id (by simp) hname hid
  rw [utf8_open, utf8_colon, utf8_close]
  simpa using h

/-- C4, at the tag `<:fire:123456>`. -/
theorem C4_parseEmoji_custom_tag_witness :
    byteColon ∉ utf8 "fire" ∧ byteColon ∉ utf8 "123456" ∧
      parseEmoji (utf8 "<:fire:123456>") = some (utf8 "fire", utf8 "123456") :=
  ⟨by decide, by decide,
    C4_parseEmoji_custom_tag (utf8 "fire") (utf8 "123456") (by decide) (by decide)⟩

/-- C5, as the code has it: `parseEmoji` returns the whole string with an empty
id for every string that is empty or does not begin with `<`, and for every
string of at least two bytes that begins with `<` and whose interior (the
string without its first and last byte) does not hold exactly two colons.  When
the interior holds exactly two colons the result is the second and third field
of the interior, whatever the first field and the last byte are. -/
theorem C5_parseEmoji_literal (e : GoString) :
    (e.head? ≠ some byteLt → parseEmoji e = some (e, [])) ∧
    (e.head? = some byteLt → 2 ≤ e.length →
      ((e.drop 1).dropLast).count byteColon ≠ 2 → parseEmoji e = some (e, [])) ∧
    (∀ (a name id : GoString) (c : UInt8),
      e = byteLt :: (a ++ byteColon :: (name ++ byteColon :: id) ++ [c]) →
      byteColon ∉ a → byteColon ∉ name → byteColon ∉ id →
      parseEmoji e = some (name, id)) := by
  refine ⟨parseEmoji_of_head_ne e, ?_, ?_⟩
  · intro hhead hlen hcount
    cases e with
    | nil => simp at hlen
    | cons c cs =>
      have hc : c = byteLt := by simpa using hhead
      subst hc
      rcases List.eq_nil_or_concat cs with hcs | ⟨m, g, hcs⟩
      · subst hcs
        simp at hlen
      · subst hcs
        rw [List.concat_eq_append] at hcount ⊢
        have hm : (List.drop 1 (byteLt :: (m ++ [g]))).dropLast = m := by simp
        rw [hm] at hcount
        rw [parseEmoji_of_interior]
        refine match_fields_of_length_ne _ (fun p1 p2 => some (p1, p2)) _ ?_
        rw [length_split]
        omega
  · intro a name id c he ha hname hid
    subst he
    exact parseEmoji_three_fields c a name id ha hname hid

/-- C5, at the literal emoji of the config template, at the empty string, and at
a string that opens like a tag without being one. -/
theorem C5_parseEmoji_literal_witness :
    parseEmoji fire = some (fire, []) ∧ parseEmoji [] = some ([], []) ∧
      parseEmoji (utf8 "<fire>") = some (utf8 "<fire>", []) ∧
      parseEmoji (utf8 "<a:b:c") = some (utf8 "b", []) :=
  ⟨(C5_parseEmoji_literal fire).1 (by decide),
    (C5_parseEmoji_literal []).1 (by decide),
    (C5_parseEmoji_literal (utf8 "<fire>")).2.1 (by decide) (by decide) (by decide),
    (C5_parseEmoji_literal (utf8 "<a:b:c")).2.2 (utf8 "a") (utf8 "b") [] 99
      (by decide) (by decide) (by decide) (by decide)⟩

/-- C5 as stated fails: the animated tag `<a:name:id>` is not of the form
`<:name:id>`, and `parseEmoji` returns its name and id, not the whole string
with an empty id. -/
theorem C5_parseEmoji_animated_tag :
    isCustomTag animatedTag = false ∧
      parseEmoji animatedTag = some (utf8 "name", utf8 "id") ∧
      parseEmoji animatedTag ≠ some (animatedTag, []) := by
  decide

/-- The one-byte string `<`: the slice `e[1 : len(e)-1]` is `e[1:0]`, which
panics. -/
theorem parseEmoji_bare_lt : parseEmoji (utf8 "<") = none := by decide

/-! ## The renderer -/

/-- C10: `buildRoleMessage` equals the reference rendering of the sequence of
(emoji, label) pairs: the placeholder for an empty role list, otherwise the
header followed by exactly one line `emoji → label` per entry in configured
order; two channels with the same sequence of pairs render alike. -/
theorem C10_buildRoleMessage_reference (cfg : ChannelConfig) :
    buildRoleMessage cfg = renderReference (cfg.roles.map (fun r => (r.emoji, r.label))) ∧
    (cfg.roles = [] → buildRoleMessage cfg = utf8 "No roles configured yet.") ∧
    (cfg.roles ≠ [] →
      buildRoleMessage cfg =
        utf8 "React to assign or remove roles:\n\n" ++
          (cfg.roles.map (fun r => r.emoji ++ utf8 " → " ++ r.label ++ utf8 "\n")).flatten ∧
      (cfg.roles.map (fun r => r.emoji ++ utf8 " → " ++ r.label ++ utf8 "\n")).length =
        cfg.roles.length) ∧
    (∀ other : ChannelConfig,
      other.roles.map (fun r => (r.emoji, r.label)) =
        cfg.roles.map (fun r => (r.emoji, r.label)) →
      buildRoleMessage other = buildRoleMessage cfg) := by
  have key : ∀ c : ChannelConfig,
      buildRoleMessage c = renderReference (c.roles.map (fun r => (r.emoji, r.label))) := by
    intro c
    unfold buildRoleMessage renderReference
    cases hr : c.roles with
    | nil => simp
    | cons x xs =>
      rw [if_neg (by simp), foldl_append_lines]
      simp [roleLine_eq, Function.comp_def]
  refine ⟨key cfg, ?_, ?_, ?_⟩
  · intro h
    simp [buildRoleMessage, h]
  · intro h
    refine ⟨?_, by simp⟩
    unfold buildRoleMessage
    rw [if_neg (by simpa using h), foldl_append_lines]
    simp [roleLine_eq]
  · intro other h
    rw [key other, key cfg, h]

/-- C10, at a channel with a literal and a custom emoji, compared with a
channel that differs in its channel, message and role ids only. -/
theorem C10_buildRoleMessage_reference_witness :
    buildRoleMessage exampleChannel =
        utf8 "React to assign or remove roles:\n\n🔥 → Hot\n<:fire:123456> → Custom\n" ∧
      buildRoleMessage exampleChannelMoved = buildRoleMessage exampleChannel ∧
      buildRoleMessage ⟨utf8 "C1", [], []⟩ = utf8 "No roles configured yet." :=
  ⟨((C10_buildRoleMessage_reference exampleChannel).2.2.1 (by decide)).1,
    (C10_buildRoleMessage_reference exampleChannel).2.2.2 exampleChannelMoved (by decide),
    (C10_buildRoleMessage_reference ⟨utf8 "C1", [], []⟩).2.1 rfl⟩

/-! ## The event handlers -/

theorem entryMatches_false_of_not_cond (role : RoleEntry) (r : MessageReaction)
    (name id : GoString) (hp : parseEmoji role.emoji = some (name, id))
    (h : entryMatches role r = false) :
    ¬ ((id ≠ [] ∧ r.emoji.id = id) ∨ (id = [] ∧ r.emoji.name = name)) := by
  unfold entryMatches at h
  rw [hp] at h
  simpa using h

theorem entryMatches_true_cond (role : RoleEntry) (r : MessageReaction)
    (h : entryMatches role r = true) :
    ∃ name id, parseEmoji role.emoji = some (name, id) ∧
      ((id ≠ [] ∧ r.emoji.id = id) ∨ (id = [] ∧ r.emoji.name = name)) := by
  unfold entryMatches at h
  cases hp : parseEmoji role.emoji with
  | none => simp [hp] at h
  | some p =>
    rcases p with ⟨name, id⟩
    rw [hp] at h
    exact ⟨name, id, rfl, by simpa using h⟩

theorem onReactionAddRoles_first_match (r : MessageReaction) (pre post : List RoleEntry)
    (m : RoleEntry)
    (hpre : ∀ x ∈ pre, x.emoji ≠ [byteLt] ∧ entryMatches x r = false)
    (hm : entryMatches m r = true) :
    onReactionAddRoles r (pre ++ m :: post) =
      RoleLoop.returned (Action.guildMemberRoleAdd r.guildID r.userID m.roleID) := by
  induction pre with
  | nil =>
    obtain ⟨name, id, hp, hc⟩ := entryMatches_true_cond m r hm
    simp only [List.nil_append, onReactionAddRoles, hp]
    rw [if_pos hc]
  | cons x xs ih =>
    have hx := hpre x (by simp)
    cases hp : parseEmoji x.emoji with
    | none => exact absurd ((parseEmoji_eq_none_iff _).1 hp) hx.1
    | some p =>
      rcases p with ⟨name, id⟩
      have hc := entryMatches_false_of_not_cond x r name id hp hx.2
      simp only [List.cons_append, onReactionAddRoles, hp]
      rw [if_neg hc]
      exact ih (fun y hy => hpre y (by simp [hy]))

theorem onReactionAddRoles_no_match (r : MessageReaction) (roles : List RoleEntry)
    (h : ∀ x ∈ roles, x.emoji ≠ [byteLt] ∧ entryMatches x r = false) :
    onReactionAddRoles r roles = RoleLoop.exhausted := by
  induction roles with
  | nil => rfl
  | cons x xs ih =>
    have hx := h x (by simp)
    cases hp : parseEmoji x.emoji with
    | none => exact absurd ((parseEmoji_eq_none_iff _).1 hp) hx.1
    | some p =>
      rcases p with ⟨name, id⟩
      have hc := entryMatches_false_of_not_cond x r name id hp hx.2
      simp only [onReactionAddRoles, hp]
      rw [if_neg hc]
      exact ih (fun y hy => h y (by simp [hy]))

theorem onReactionAddChannels_skip (r : MessageReaction) (pre rest : List ChannelConfig)
    (hpre : ∀ c ∈ pre, tracks c r = false) :
    onReactionAddChannels r (pre ++ rest) = onReactionAddChannels r rest := by
  induction pre with
  | nil => rfl
  | cons c cs ih =>
    have hc : r.channelID ≠ c.channelID ∨ r.messageID ≠ c.messageID := by
      have := hpre c (by simp)
      simp only [tracks, decide_eq_false_iff_not] at this
      tauto
    simp only [List.cons_append, onReactionAddChannels]
    rw [if_pos hc]
    exact ih (fun y hy => hpre y (by simp [hy]))

/-- The behaviour C1 describes, for the runs in which `parseEmoji` does not
panic before the first matching entry: the first tracked channel whose role
list holds a matching entry yields exactly one call, the grant of the role of
the first matching entry. -/
theorem onReactionAdd_first_match (config : BotConfig) (r : MessageReaction)
    (pre post : List ChannelConfig) (ch : ChannelConfig)
    (rpre rpost : List RoleEntry) (m : RoleEntry)
    (hconfig : config.channels = pre ++ ch :: post)
    (hpre : ∀ c ∈ pre, tracks c r = false) (hch : tracks ch r = true)
    (hroles : ch.roles = rpre ++ m :: rpost)
    (hrpre : ∀ x ∈ rpre, x.emoji ≠ [byteLt] ∧ entryMatches x r = false)
    (hm : entryMatches m r = true) :
    onReactionAdd config r =
      ⟨config, [Action.guildMemberRoleAdd r.guildID r.userID m.roleID], false⟩ := by
  have hc : ¬ (r.channelID ≠ ch.channelID ∨ r.messageID ≠ ch.messageID) := by
    simp only [tracks, decide_eq_true_eq] at hch
    simp [hch.1, hch.2]
  unfold onReactionAdd
  rw [hconfig, onReactionAddChannels_skip r pre _ hpre]
  simp only [onReactionAddChannels]
  rw [if_neg hc, hroles, onReactionAddRoles_first_match r rpre rpost m hrpre hm]

/-- C1 fails on the code: in `brokenConfig` the tracked channel lists the bare
`<` before the fire emoji; the fire entry is the first (and only) entry that
matches a fire reaction, but the handler panics in `parseEmoji` on the entry
before it and issues no call at all. -/
theorem C1_onReactionAdd_panics_before_match :
    (∃ ch, brokenConfig.channels = [ch] ∧ tracks ch fireReaction = true ∧
      ch.roles.map (fun role => entryMatches role fireReaction) = [false, true]) ∧
    parseEmoji (utf8 "<") = none ∧
    onReactionAdd brokenConfig fireReaction = ⟨brokenConfig, [], true⟩ := by
  refine ⟨⟨_, rfl, ?_, ?_⟩, ?_, ?_⟩ <;> decide

theorem onReactionRoles_mirror (r : MessageReaction) (roles : List RoleEntry) :
    (∀ call, onReactionAddRoles r roles = RoleLoop.returned call →
      ∃ role, call = Action.guildMemberRoleAdd r.guildID r.userID role ∧
        onReactionRemoveRoles r roles =
          RoleLoop.returned (Action.guildMemberRoleRemove r.guildID r.userID role)) ∧
    (onReactionAddRoles r roles = RoleLoop.exhausted →
      onReactionRemoveRoles r roles = RoleLoop.exhausted) ∧
    (onReactionAddRoles r roles = RoleLoop.panicked →
      onReactionRemoveRoles r roles = RoleLoop.panicked) := by
  induction roles with
  | nil => simp [onReactionAddRoles, onReactionRemoveRoles]
  | cons x xs ih =>
    cases hp : parseEmoji x.emoji with
    | none => simp [onReactionAddRoles, onReactionRemoveRoles, hp]
    | some p =>
      rcases p with ⟨name, id⟩
      by_cases hc : (id ≠ [] ∧ r.emoji.id = id) ∨ (id = [] ∧ r.emoji.name = name)
      · simp only [onReactionAddRoles, onReactionRemoveRoles, hp]
        rw [if_pos hc, if_pos hc]
        refine ⟨?_, by simp, by simp⟩
        intro call hcall
        refine ⟨x.roleID, ?_, rfl⟩
        simpa using hcall.symm
      · simp only [onReactionAddRoles, onReactionRemoveRoles, hp]
        rw [if_neg hc, if_neg hc]
        exact ih

theorem onReactionChannels_mirror (r : MessageReaction) (chs : List ChannelConfig) :
    onReactionRemoveChannels r chs =
      ((onReactionAddChannels r chs).1.filterMap mirror, (onReactionAddChannels r chs).2) := by
  induction chs with
  | nil => simp [onReactionAddChannels, onReactionRemoveChannels]
  | cons ch rest ih =>
    by_cases hc : r.channelID ≠ ch.channelID ∨ r.messageID ≠ ch.messageID
    · simp only [onReactionAddChannels, onReactionRemoveChannels]
      rw [if_pos hc, if_pos hc]
      exact ih
    · simp only [onReactionAddChannels, onReactionRemoveChannels]
      rw [if_neg hc, if_neg hc]
      obtain ⟨hret, hex, hpanic⟩ := onReactionRoles_mirror r ch.roles
      cases hadd : onReactionAddRoles r ch.roles with
      | returned call =>
        obtain ⟨role, hcall, hrem⟩ := hret call hadd
        rw [hrem, hcall]
        simp [mirror]
      | exhausted =>
        rw [hex hadd]
        simp [mirror, ih]
      | panicked =>
        rw [hpanic hadd]
        simp

theorem onReactionRemoveChannels_calls (r : MessageReaction) (chs : List ChannelConfig) :
    ∀ a ∈ (onReactionRemoveChannels r chs).1,
      ∃ role, a = Action.guildMemberRoleRemove r.guildID r.userID role := by
  induction chs with
  | nil => simp [onReactionRemoveChannels]
  | cons ch rest ih =>
    simp only [onReactionRemoveChannels]
    split_ifs with hc
    · exact ih
    · obtain ⟨hret, -, -⟩ := onReactionRoles_mirror r ch.roles
      cases hadd : onReactionAddRoles r ch.roles with
      | returned call =>
        obtain ⟨role, -, hrem⟩ := hret call hadd
        rw [hrem]
        intro a ha
        exact ⟨role, by simpa using ha⟩
      | exhausted =>
        rw [(onReactionRoles_mirror r ch.roles).2.1 hadd]
        exact ih
      | panicked =>
        rw [(onReactionRoles_mirror r ch.roles).2.2 hadd]
        simp

theorem onReactionAddChannels_grants (r : MessageReaction) (chs : List ChannelConfig) :
    ∀ g u role, Action.guildMemberRoleAdd g u role ∈ (onReactionAddChannels r chs).1 →
      g = r.guildID ∧ u = r.userID := by
  induction chs with
  | nil => simp [onReactionAddChannels]
  | cons ch rest ih =>
    simp only [onReactionAddChannels]
    split_ifs with hc
    · exact ih
    · obtain ⟨hret, -, -⟩ := onReactionRoles_mirror r ch.roles
      cases hadd : onReactionAddRoles r ch.roles with
      | returned call =>
        obtain ⟨role, hcall, -⟩ := hret call hadd
        intro g u x hx
        rw [hcall] at hx
        simp at hx
        exact ⟨hx.1, hx.2.1⟩
      | exhausted =>
        intro g u x hx
        simp at hx
        exact ih g u x hx
      | panicked => simp

theorem onReactionRemoveRoles_no_match (r : MessageReaction) (roles : List RoleEntry)
    (h : ∀ x ∈ roles, entryMatches x r = false) :
    ∀ call, onReactionRemoveRoles r roles ≠ RoleLoop.returned call := by
  induction roles with
  | nil => simp [onReactionRemoveRoles]
  | cons x xs ih =>
    have hx := h x (by simp)
    cases hp : parseEmoji x.emoji with
    | none => simp [onReactionRemoveRoles, hp]
    | some p =>
      rcases p with ⟨name, id⟩
      have hc := entryMatches_false_of_not_cond x r name id hp hx
      simp only [onReactionRemoveRoles, hp]
      rw [if_neg hc]
      exact ih (fun y hy => h y (by simp [hy]))

theorem onReactionRemoveChannels_no_match (r : MessageReaction) (chs : List ChannelConfig)
    (h : ∀ ch ∈ chs, tracks ch r = true → ∀ role ∈ ch.roles, entryMatches role r = false) :
    (onReactionRemoveChannels r chs).1 = [] := by
  induction chs with
  | nil => rfl
  | cons ch rest ih =>
    have ihr := ih (fun c hc => h c (by simp [hc]))
    simp only [onReactionRemoveChannels]
    split_ifs with hc
    · exact ihr
    · have ht : tracks ch r = true := by
        simp only [tracks, decide_eq_true_eq]
        constructor
        · by_contra hne
          exact hc (Or.inl hne)
        · by_contra hne
          exact hc (Or.inr hne)
      have hno := onReactionRemoveRoles_no_match r ch.roles (h ch (by simp) ht)
      cases hrem : onReactionRemoveRoles r ch.roles with
      | returned call => exact absurd hrem (hno call)
      | exhausted => exact ihr
      | panicked => rfl

/-- C2: `onReactionRemove` mirrors `onReactionAdd`.  Its calls are the grants of
`onReactionAdd` on the same config and event, each turned into the revoke of
the same guild, user and role, and it panics exactly when `onReactionAdd` does;
so it revokes a role iff `onReactionAdd` grants it.  It issues no other call,
and none at all when no entry of a tracked channel matches the emoji or when
the channel and message are not tracked. -/
theorem C2_onReactionRemove_mirrors (config : BotConfig) (r : MessageReaction) :
    (onReactionRemove config r).calls = (onReactionAdd config r).calls.filterMap mirror ∧
    (onReactionRemove config r).panicked = (onReactionAdd config r).panicked ∧
    (∀ g u role, Action.guildMemberRoleRemove g u role ∈ (onReactionRemove config r).calls ↔
      Action.guildMemberRoleAdd g u role ∈ (onReactionAdd config r).calls) ∧
    (∀ g u role, Action.guildMemberRoleAdd g u role ∈ (onReactionAdd config r).calls →
      g = r.guildID ∧ u = r.userID) ∧
    (∀ a ∈ (onReactionRemove config r).calls,
      ∃ role, a = Action.guildMemberRoleRemove r.guildID r.userID role) ∧
    ((∀ ch ∈ config.channels, tracks ch r = true →
        ∀ role ∈ ch.roles, entryMatches role r = false) →
      (onReactionRemove config r).calls = []) ∧
    ((∀ ch ∈ config.channels, tracks ch r = false) →
      (onReactionRemove config r).calls = []) := by
  have hm := onReactionChannels_mirror r config.channels
  have hcalls : (onReactionRemove config r).calls =
      (onReactionAdd config r).calls.filterMap mirror := by
    simp [onReactionRemove, onReactionAdd, hm]
  refine ⟨hcalls, by simp [onReactionRemove, onReactionAdd, hm], ?_,
    onReactionAddChannels_grants r config.channels,
    onReactionRemoveChannels_calls r config.channels,
    onReactionRemoveChannels_no_match r config.channels, ?_⟩
  · intro g u role
    rw [hcalls, List.mem_filterMap]
    constructor
    · rintro ⟨a, ha, hmir⟩
      cases a <;> simp [mirror] at hmir
      obtain ⟨h1, h2, h3⟩ := hmir
      subst h1 h2 h3
      exact ha
    · intro h
      exact ⟨_, h, rfl⟩
  · intro h
    apply onReactionRemoveChannels_no_match r config.channels
    intro ch hch ht
    rw [h ch hch] at ht
    exact absurd ht (by simp)

/-- C2, at a config with a literal and a custom emoji: a removed fire reaction
revokes the role that the added one grants, and a removed thumbs-up, which
matches no entry, issues nothing. -/
theorem C2_onReactionRemove_mirrors_witness :
    (onReactionAdd exampleConfig fireReaction).calls =
        [Action.guildMemberRoleAdd (utf8 "G1") (utf8 "U1") (utf8 "R1")] ∧
      Action.guildMemberRoleRemove (utf8 "G1") (utf8 "U1") (utf8 "R1") ∈
        (onReactionRemove exampleConfig fireReaction).calls ∧
      (onReactionRemove exampleConfig thumbReaction).calls = [] :=
  ⟨by decide,
    ((C2_onReactionRemove_mirrors exampleConfig fireReaction).2.2.1 _ _ _).2 (by decide),
    (C2_onReactionRemove_mirrors exampleConfig thumbReaction).2.2.2.2.2.1 (by decide)⟩

theorem onReactionAddChannels_no_match (r : MessageReaction) (chs : List ChannelConfig)
    (h : ∀ ch ∈ chs, tracks ch r = true →
      ∀ role ∈ ch.roles, role.emoji ≠ [byteLt] ∧ entryMatches role r = false) :
    onReactionAddChannels r chs =
      ((chs.filter (fun ch => tracks ch r)).map
        (fun ch => Action.messageReactionRemove ch.channelID ch.messageID r.emoji r.userID),
        false) := by
  induction chs with
  | nil => rfl
  | cons ch rest ih =>
    have ihr := ih (fun c hc => h c (by simp [hc]))
    simp only [onReactionAddChannels]
    split_ifs with hc
    · have ht : tracks ch r = false := by
        simp only [tracks, decide_eq_false_iff_not]
        tauto
      rw [ihr, List.filter_cons_of_neg (by simp [ht])]
    · have ht : tracks ch r = true := by
        simp only [tracks, decide_eq_true_eq]
        constructor
        · by_contra hne
          exact hc (Or.inl hne)
        · by_contra hne
          exact hc (Or.inr hne)
      rw [onReactionAddRoles_no_match r ch.roles (h ch (by simp) ht), ihr,
        List.filter_cons_of_pos (by simp [ht])]
      simp

theorem filter_tracks_single (r : MessageReaction) (pre post : List ChannelConfig)
    (ch : ChannelConfig) (hpre : ∀ c ∈ pre, tracks c r = false)
    (hpost : ∀ c ∈ post, tracks c r = false) (hch : tracks ch r = true) :
    (pre ++ ch :: post).filter (fun c => tracks c r) = [ch] := by
  have h1 : pre.filter (fun c => tracks c r) = [] := by
    rw [List.filter_eq_nil_iff]
    intro c hc
    simp [hpre c hc]
  have h2 : post.filter (fun c => tracks c r) = [] := by
    rw [List.filter_eq_nil_iff]
    intro c hc
    simp [hpost c hc]
  rw [List.filter_append, h1, List.filter_cons_of_pos (by simp [hch]), h2]
  rfl

/-- C3, as the code has it.  When no role entry of any channel tracking the
message of the event matches the emoji (and none of these entries is the bare
`<`), `onReactionAdd` issues one remove-reaction per tracking channel, in
configured order, on that channel and message for the emoji and user of the
event, and no other call; for a message tracked by exactly one channel that is
exactly one remove-reaction and no grant.  When no configured channel tracks
the message it issues no call at all. -/
theorem C3_onReactionAdd_unmatched (config : BotConfig) (r : MessageReaction) :
    ((∀ ch ∈ config.channels, tracks ch r = true →
        ∀ role ∈ ch.roles, role.emoji ≠ [byteLt] ∧ entryMatches role r = false) →
      onReactionAdd config r =
        ⟨config,
          (config.channels.filter (fun ch => tracks ch r)).map
            (fun ch => Action.messageReactionRemove ch.channelID ch.messageID r.emoji r.userID),
          false⟩) ∧
    (∀ (pre post : List ChannelConfig) (ch : ChannelConfig),
      config.channels = pre ++ ch :: post →
      (∀ c ∈ pre, tracks c r = false) → (∀ c ∈ post, tracks c r = false) →
      tracks ch r = true →
      (∀ role ∈ ch.roles, role.emoji ≠ [byteLt] ∧ entryMatches role r = false) →
      onReactionAdd config r =
        ⟨config, [Action.messageReactionRemove r.channelID r.messageID r.emoji r.userID],
          false⟩) ∧
    ((∀ ch ∈ config.channels, tracks ch r = false) →
      onReactionAdd config r = ⟨config, [], false⟩) := by
  refine ⟨?_, ?_, ?_⟩
  · intro h
    unfold onReactionAdd
    rw [onReactionAddChannels_no_match r config.channels h]
  · intro pre post ch hconfig hpre hpost hch hroles
    have hall : ∀ c ∈ config.channels, tracks c r = true →
        ∀ role ∈ c.roles, role.emoji ≠ [byteLt] ∧ entryMatches role r = false := by
      intro c hc ht
      rw [hconfig, List.mem_append, List.mem_cons] at hc
      rcases hc with hc | hc | hc
      · rw [hpre c hc] at ht
        exact absurd ht (by simp)
      · rw [hc]
        exact hroles
      · rw [hpost c hc] at ht
        exact absurd ht (by simp)
    have hids : ch.channelID = r.channelID ∧ ch.messageID = r.messageID := by
      simp only [tracks, decide_eq_true_eq] at hch
      exact ⟨hch.1.symm, hch.2.symm⟩
    unfold onReactionAdd
    rw [onReactionAddChannels_no_match r config.channels hall, hconfig,
      filter_tracks_single r pre post ch hpre hpost hch]
    simp [hids.1, hids.2]
  · intro h
    have hall : ∀ c ∈ config.channels, tracks c r = true →
        ∀ role ∈ c.roles, role.emoji ≠ [byteLt] ∧ entryMatches role r = false := by
      intro c hc ht
      rw [h c hc] at ht
      exact absurd ht (by simp)
    have hnil : config.channels.filter (fun c => tracks c r) = [] := by
      rw [List.filter_eq_nil_iff]
      intro c hc
      simp [h c hc]
    unfold onReactionAdd
    rw [onReactionAddChannels_no_match r config.channels hall, hnil]
    rfl

/-- C3, at a thumbs-up reaction on the tracked message of `exampleConfig`, which
matches none of its entries, and at the same reaction on a config without
channels. -/
theorem C3_onReactionAdd_unmatched_witness :
    onReactionAdd exampleConfig thumbReaction =
        ⟨exampleConfig,
          [Action.messageReactionRemove (utf8 "C1") (utf8 "M1") ⟨[], utf8 "👍"⟩ (utf8 "U1")],
          false⟩ ∧
      onReactionAdd ⟨utf8 "T", []⟩ thumbReaction = ⟨⟨utf8 "T", []⟩, [], false⟩ :=
  ⟨(C3_onReactionAdd_unmatched exampleConfig thumbReaction).2.1 [] [] exampleChannel rfl
      (by decide) (by decide) (by decide) (by decide),
    (C3_onReactionAdd_unmatched ⟨utf8 "T", []⟩ thumbReaction).2.2 (by decide)⟩

/-- C3 as stated fails: in `doubledConfig` the first channel tracking the
message has no role entry at all, so none of its entries matches the fire
reaction; `onReactionAdd` strips the reaction for it, goes on to the second
channel tracking the same message, and grants a role there. -/
theorem C3_onReactionAdd_strips_then_grants :
    emptyChannel ∈ doubledConfig.channels ∧ tracks emptyChannel fireReaction = true ∧
      (∀ role ∈ emptyChannel.roles, entryMatches role fireReaction = false) ∧
      onReactionAdd doubledConfig fireReaction =
        ⟨doubledConfig,
          [Action.messageReactionRemove (utf8 "C1") (utf8 "M1") ⟨[], fire⟩ (utf8 "U1"),
            Action.guildMemberRoleAdd (utf8 "G1") (utf8 "U1") (utf8 "R1")],
          false⟩ := by
  decide

/-! ## The reconciler -/

theorem attachReactions_kind (ch : ChannelConfig) (roles : List RoleEntry) :
    ∀ a ∈ (attachReactions ch roles).1, isReactionAdd a = true := by
  induction roles with
  | nil => simp [attachReactions]
  | cons x xs ih =>
    cases hp : parseEmoji x.emoji with
    | none => simp [attachReactions, hp]
    | some p =>
      rcases p with ⟨name, id⟩
      simp only [attachReactions, hp]
      intro a ha
      rcases List.mem_cons.1 ha with h | h
      · rw [h]
        rfl
      · exact ih a h

theorem attachReactions_of_no_panic (ch : ChannelConfig) (roles : List RoleEntry)
    (h : ∀ x ∈ roles, x.emoji ≠ [byteLt]) :
    attachReactions ch roles =
      (roles.map (fun x =>
        Action.messageReactionAdd ch.channelID ch.messageID (resolvedEmoji x.emoji)), false) := by
  induction roles with
  | nil => rfl
  | cons x xs ih =>
    have hx := h x (by simp)
    cases hp : parseEmoji x.emoji with
    | none => exact absurd ((parseEmoji_eq_none_iff _).1 hp) hx
    | some p =>
      rcases p with ⟨name, id⟩
      simp only [attachReactions, hp, ih (fun y hy => h y (by simp [hy])), List.map_cons,
        resolvedEmoji]
      by_cases hid : id = []
      · simp [hid]
      · simp [hid]

theorem filter_isReactionAdd_attach (ch : ChannelConfig) (roles : List RoleEntry) :
    (attachReactions ch roles).1.filter isReactionAdd = (attachReactions ch roles).1 := by
  rw [List.filter_eq_self]
  exact attachReactions_kind ch roles

theorem filter_isEdit_attach (ch : ChannelConfig) (roles : List RoleEntry) :
    (attachReactions ch roles).1.filter isEdit = [] := by
  rw [List.filter_eq_nil_iff]
  intro a ha
  have := attachReactions_kind ch roles a ha
  cases a <;> simp [isReactionAdd, isEdit] at this ⊢

theorem not_isSend_attach (ch : ChannelConfig) (roles : List RoleEntry) :
    ∀ a ∈ (attachReactions ch roles).1, isSend a = false := by
  intro a ha
  have := attachReactions_kind ch roles a ha
  cases a <;> simp [isReactionAdd, isSend] at this ⊢

/-- C7: on a channel whose `message_id` is set, whatever the platform answers,
`ensureRoleMessage` issues no create-message call and exactly one edit, that of
the tracked message with the text `buildRoleMessage` of the channel, and leaves
the config unchanged; a second run on the resulting config, under any platform
answers, has the same result, so it sends the same text for edit and issues the
same sequence of calls. -/
theorem C7_ensureRoleMessage_idempotent (o : Outcome) (config : BotConfig) (i : Nat)
    (ch : ChannelConfig) (hch : config.channels[i]? = some ch) (hid : ch.messageID ≠ []) :
    (∀ a ∈ (ensureRoleMessage o config i).calls, isSend a = false) ∧
    (ensureRoleMessage o config i).calls.filter isEdit =
      [Action.channelMessageEdit ch.channelID ch.messageID (buildRoleMessage ch)] ∧
    (ensureRoleMessage o config i).calls.head? =
      some (Action.channelMessageEdit ch.channelID ch.messageID (buildRoleMessage ch)) ∧
    (ensureRoleMessage o config i).config = config ∧
    (∀ o2 : Outcome,
      ensureRoleMessage o2 (ensureRoleMessage o config i).config i =
        ensureRoleMessage o config i) := by
  have hrun : ∀ o1 : Outcome, ensureRoleMessage o1 config i =
      ⟨config, Action.channelMessageEdit ch.channelID ch.messageID (buildRoleMessage ch) ::
        (attachReactions ch ch.roles).1, (attachReactions ch ch.roles).2, false⟩ := by
    intro o1
    unfold ensureRoleMessage
    rw [hch]
    simp only
    rw [if_neg hid]
  rw [hrun o]
  refine ⟨?_, ?_, rfl, rfl, ?_⟩
  · intro a ha
    rcases List.mem_cons.1 ha with h | h
    · rw [h]
      rfl
    · exact not_isSend_attach ch ch.roles a h
  · rw [List.filter_cons_of_pos (by rfl), filter_isEdit_attach]
  · intro o2
    exact hrun o2

/-- C7, at the channel of `exampleConfig`, whose edit fails in the first run and
succeeds in the second. -/
theorem C7_ensureRoleMessage_idempotent_witness :
    exampleConfig.channels[0]? = some exampleChannel ∧ exampleChannel.messageID ≠ [] ∧
      ensureRoleMessage createFails (ensureRoleMessage createGivesM1 exampleConfig 0).config 0 =
        ensureRoleMessage createGivesM1 exampleConfig 0 :=
  ⟨rfl, by decide,
    (C7_ensureRoleMessage_idempotent createGivesM1 exampleConfig 0 exampleChannel rfl
      (by decide)).2.2.2.2 createFails⟩

theorem ensureRoleMessage_save_exits (o : Outcome) (config : BotConfig) (i : Nat)
    (ch : ChannelConfig) (id : GoString) (hch : config.channels[i]? = some ch)
    (hid : ch.messageID = []) (hcreate : o.create = some id) (hsave : o.defaultPath = none) :
    ensureRoleMessage o config i =
      ⟨⟨config.botToken, config.channels.set i ⟨ch.channelID, id, ch.roles⟩⟩,
        [Action.channelMessageSend ch.channelID (buildRoleMessage ch)], false, true⟩ := by
  unfold ensureRoleMessage
  rw [hch]
  simp only
  rw [if_pos hid, hcreate]
  simp only [SaveConfig, hsave, if_true]

/-- C8, as the code has it.  When the channel has a `message_id`, whether the
edit succeeds or fails, and when it has none, the create succeeds and
`SaveConfig` returns, the reaction-add calls of `ensureRoleMessage` are exactly
one per role entry, in configured order, on the tracked message (the created
one in the second case), with the resolved emoji of the entry, whatever the
platform answers to them (no entry being the bare `<`).  When the channel has
no `message_id` and the create fails, the create-message call is the only
call: no reaction is attached. -/
theorem C8_ensureRoleMessage_reactions (o : Outcome) (config : BotConfig) (i : Nat)
    (ch : ChannelConfig) (hch : config.channels[i]? = some ch) :
    (ch.messageID ≠ [] → (∀ x ∈ ch.roles, x.emoji ≠ [byteLt]) →
      (ensureRoleMessage o config i).calls.filter isReactionAdd =
          ch.roles.map (fun x =>
            Action.messageReactionAdd ch.channelID ch.messageID (resolvedEmoji x.emoji)) ∧
        (ensureRoleMessage o config i).panicked = false ∧
        (ensureRoleMessage o config i).exited = false) ∧
    (∀ id path, ch.messageID = [] → o.create = some id → o.defaultPath = some path →
      (∀ x ∈ ch.roles, x.emoji ≠ [byteLt]) →
      (ensureRoleMessage o config i).calls.filter isReactionAdd =
          ch.roles.map (fun x =>
            Action.messageReactionAdd ch.channelID id (resolvedEmoji x.emoji)) ∧
        (ensureRoleMessage o config i).panicked = false ∧
        (ensureRoleMessage o config i).exited = false) ∧
    (ch.messageID = [] → o.create = none →
      ensureRoleMessage o config i =
        ⟨config, [Action.channelMessageSend ch.channelID (buildRoleMessage ch)], false,
          false⟩) := by
  refine ⟨?_, ?_, ?_⟩
  · intro hid hroles
    unfold ensureRoleMessage
    rw [hch]
    simp only
    rw [if_neg hid, attachReactions_of_no_panic ch ch.roles hroles]
    refine ⟨?_, rfl, rfl⟩
    rw [List.filter_cons_of_neg (by simp [isReactionAdd]), List.filter_eq_self]
    intro a ha
    obtain ⟨x, -, hx⟩ := List.mem_map.1 ha
    rw [← hx]
    rfl
  · intro id path hid hcreate hsave hroles
    unfold ensureRoleMessage
    rw [hch]
    simp only
    rw [if_pos hid, hcreate]
    simp only [SaveConfig, hsave, if_true]
    rw [attachReactions_of_no_panic _ ch.roles hroles]
    refine ⟨?_, rfl, trivial⟩
    rw [List.filter_cons_of_neg (by simp [isReactionAdd]),
      List.filter_cons_of_neg (by simp [isReactionAdd]), List.filter_eq_self]
    intro a ha
    obtain ⟨x, -, hx⟩ := List.mem_map.1 ha
    rw [← hx]
    rfl
  · intro hid hcreate
    unfold ensureRoleMessage
    rw [hch]
    simp only
    rw [if_pos hid, hcreate]

/-- C8, at the channel of `exampleConfig` with a failing edit, at the channel of
`freshConfig` with a successful create, and at the same channel with a failing
create. -/
theorem C8_ensureRoleMessage_reactions_witness :
    (ensureRoleMessage createGivesM1 exampleConfig 0).calls.filter isReactionAdd =
        [Action.messageReactionAdd (utf8 "C1") (utf8 "M1") fire,
          Action.messageReactionAdd (utf8 "C1") (utf8 "M1") (utf8 "<:fire:123456>")] ∧
      (ensureRoleMessage createGivesM1 freshConfig 0).calls.filter isReactionAdd =
        [Action.messageReactionAdd (utf8 "C1") (utf8 "M1") fire] ∧
      (ensureRoleMessage createFails freshConfig 0).calls =
        [Action.channelMessageSend (utf8 "C1") (utf8 "React to assign or remove roles:\n\n🔥 → Hot\n")] :=
  ⟨((C8_ensureRoleMessage_reactions createGivesM1 exampleConfig 0 exampleChannel rfl).1
      (by decide) (by decide)).1,
    ((C8_ensureRoleMessage_reactions createGivesM1 freshConfig 0 _ rfl).2.1 (utf8 "M1")
      homeConfigPath rfl rfl rfl (by decide)).1,
    congrArg EnsureRun.calls
      ((C8_ensureRoleMessage_reactions createFails freshConfig 0 _ rfl).2.2 rfl rfl)⟩

/-- C8 as stated fails: the channel of `freshConfig` has one role entry and no
`message_id`; when the create fails, `ensureRoleMessage` returns right after
the create-message call and attempts no reaction-add. -/
theorem C8_ensureRoleMessage_create_failure :
    (∃ ch, freshConfig.channels[0]? = some ch ∧ ch.roles.length = 1) ∧
      createFails.create = none ∧
      (ensureRoleMessage createFails freshConfig 0).calls.filter isReactionAdd = [] ∧
      (ensureRoleMessage createFails freshConfig 0).panicked = false ∧
      (ensureRoleMessage createFails freshConfig 0).exited = false := by
  refine ⟨⟨_, rfl, rfl⟩, rfl, ?_, ?_, ?_⟩ <;> decide

/-- The end-to-end scenario in the runs in which `SaveConfig` returns: for a
config with one channel that has no `message_id` and one role entry whose emoji
`E` does not begin with `<`, when the create succeeds with message id `M` and
the default config path is `path`, `ensureRoleMessage` issues the
create-message call with the rendered text, stores `M` in the config, writes
that config to `path` and attaches `E` to message `M`; on the resulting config,
a reaction-added event on that channel and message with emoji name `E` yields
exactly one call, the grant of the role to the reacting user. -/
theorem ensureRoleMessage_create_then_react (token c E role label M path : GoString)
    (o : Outcome) (hE : E.head? ≠ some byteLt) (hcreate : o.create = some M)
    (hsave : o.defaultPath = some path) :
    ensureRoleMessage o ⟨token, [⟨c, [], [⟨E, role, label⟩]⟩]⟩ 0 =
        ⟨⟨token, [⟨c, M, [⟨E, role, label⟩]⟩]⟩,
          [Action.channelMessageSend c (buildRoleMessage ⟨c, [], [⟨E, role, label⟩]⟩),
            Action.writeFile path ⟨token, [⟨c, M, [⟨E, role, label⟩]⟩]⟩,
            Action.messageReactionAdd c M E],
          false, false⟩ ∧
    (∀ r : MessageReaction, r.channelID = c → r.messageID = M → r.emoji.name = E →
      onReactionAdd (ensureRoleMessage o ⟨token, [⟨c, [], [⟨E, role, label⟩]⟩]⟩ 0).config r =
        ⟨⟨token, [⟨c, M, [⟨E, role, label⟩]⟩]⟩,
          [Action.guildMemberRoleAdd r.guildID r.userID role], false⟩) := by
  have hp : parseEmoji E = some (E, []) := parseEmoji_of_head_ne E hE
  have hrun : ensureRoleMessage o ⟨token, [⟨c, [], [⟨E, role, label⟩]⟩]⟩ 0 =
      ⟨⟨token, [⟨c, M, [⟨E, role, label⟩]⟩]⟩,
        [Action.channelMessageSend c (buildRoleMessage ⟨c, [], [⟨E, role, label⟩]⟩),
          Action.writeFile path ⟨token, [⟨c, M, [⟨E, role, label⟩]⟩]⟩,
          Action.messageReactionAdd c M E],
        false, false⟩ := by
    simp [ensureRoleMessage, hcreate, SaveConfig, hsave, attachReactions, hp]
  refine ⟨hrun, ?_⟩
  intro r hc hm hname
  rw [hrun]
  simp [onReactionAdd, onReactionAddChannels, onReactionAddRoles, hp, hc, hm, hname]

/-- C6 fails on the code, in the step that persists the config.  In the
scenario of the specification (one channel without `message_id`, the role `R1`
under the thumbs-up emoji, a create that returns `M1`), `ensureRoleMessage`
calls `SaveConfig` with the empty path: the only file written is the default
config file of the home directory, which is not the config file of a bot
started with `-config /tmp/x.json`; and when the home directory cannot be
determined the process ends inside `SaveConfig`, after the create-message call
and before any reaction is attached. -/
theorem C6_ensureRoleMessage_saves_default_path :
    (ensureRoleMessage createGivesM1 thumbConfig 0).calls =
        [Action.channelMessageSend (utf8 "C1")
            (utf8 "React to assign or remove roles:\n\n👍 → Up\n"),
          Action.writeFile homeConfigPath thumbConfigM1,
          Action.messageReactionAdd (utf8 "C1") (utf8 "M1") (utf8 "👍")] ∧
      (ensureRoleMessage createGivesM1 thumbConfig 0).calls.filterMap writtenPath =
        [homeConfigPath] ∧
      homeConfigPath ≠ overridePath ∧
      ensureRoleMessage createGivesM1NoHome thumbConfig 0 =
        ⟨thumbConfigM1,
          [Action.channelMessageSend (utf8 "C1")
            (utf8 "React to assign or remove roles:\n\n👍 → Up\n")],
          false, true⟩ := by
  refine ⟨?_, ?_, ?_, ?_⟩ <;> decide

/-! ## The config watcher -/

theorem timeSince_lt_iff (t now : Int) :
    timeSince (some t) now < 2 * second ↔ now - t < 2 * second := by
  simp only [timeSince, minDuration, maxDuration, second]
  omega

theorem timeSince_none (now : Int) : ¬ timeSince none now < 2 * second := by
  simp only [timeSince, maxDuration, second]
  omega

theorem ensureRoleMessage_no_panic (o : Outcome) (config : BotConfig) (i : Nat)
    (h : noBareLt config) (hsave : o.defaultPath ≠ none) :
    (ensureRoleMessage o config i).panicked = false ∧
      (ensureRoleMessage o config i).exited = false ∧
      noBareLt (ensureRoleMessage o config i).config := by
  unfold ensureRoleMessage
  cases hch : config.channels[i]? with
  | none => exact ⟨rfl, rfl, h⟩
  | some ch =>
    have hmem : ch ∈ config.channels := List.getElem?_mem hch
    have hroles := h ch hmem
    simp only
    split_ifs with hid
    · cases hcreate : o.create with
      | none => exact ⟨rfl, rfl, h⟩
      | some id =>
        cases hpath : o.defaultPath with
        | none => exact absurd hpath hsave
        | some path =>
          simp only [SaveConfig, if_true]
          rw [attachReactions_of_no_panic _ ch.roles hroles]
          refine ⟨rfl, trivial, ?_⟩
          intro c hc
          rcases List.mem_or_eq_of_mem_set hc with hc1 | hc1
          · exact h c hc1
          · rw [hc1]
            exact hroles
    · rw [attachReactions_of_no_panic _ ch.roles hroles]
      exact ⟨rfl, rfl, h⟩

theorem ensureFrom_of_no_panic (outcomes : Nat → Outcome) (k i : Nat) (config : BotConfig)
    (h : noBareLt config) (hsave : ∀ j, (outcomes j).defaultPath ≠ none) :
    (ensureFrom outcomes k i config).calls = reconcilePass outcomes k i config ∧
      (ensureFrom outcomes k i config).panicked = false ∧
      (ensureFrom outcomes k i config).exited = false := by
  induction k generalizing i config with
  | zero => exact ⟨rfl, rfl, rfl⟩
  | succ k ih =>
    obtain ⟨hp, he, hcfg⟩ := ensureRoleMessage_no_panic (outcomes i) config i h (hsave i)
    obtain ⟨h1, h2, h3⟩ := ih (i + 1) _ hcfg
    simp only [ensureFrom, reconcilePass, hp, he, Bool.false_eq_true, or_self, if_false]
    exact ⟨by rw [h1], h2, h3⟩

theorem watchEvent_accepted_iff (w : Watcher) (ev : FsEvent) :
    (watchEvent w ev).verdict = Verdict.accepted ↔
      (ev.nameIsConfig = true ∧ ev.opIsWriteCreateRename = true) ∧
        ¬ timeSince w.lastUpdate ev.sinceClock < 2 * second := by
  unfold watchEvent
  split_ifs with h1 h2
  · simp [h1, h2]
  · cases ev.loaded <;> simp [h1, h2]
  · simp [h1]

theorem watchEvent_lastUpdate (w : Watcher) (ev : FsEvent) :
    (watchEvent w ev).watcher.lastUpdate =
      if (watchEvent w ev).verdict = Verdict.accepted then some ev.nowClock else w.lastUpdate := by
  by_cases h1 : ev.nameIsConfig = true ∧ ev.opIsWriteCreateRename = true
  · by_cases h2 : timeSince w.lastUpdate ev.sinceClock < 2 * second
    · simp [watchEvent, h1, h2]
    · cases hl : ev.loaded <;> simp [watchEvent, h1, h2, hl]
  · simp [watchEvent, h1]

theorem watchEvent_not_accepted (w : Watcher) (ev : FsEvent)
    (h : (watchEvent w ev).verdict ≠ Verdict.accepted) :
    (watchEvent w ev).watcher = w ∧ (watchEvent w ev).calls = [] ∧
      (watchEvent w ev).running = true := by
  unfold watchEvent at h ⊢
  split_ifs with h1 h2
  · simp
  · rw [if_pos h1, if_neg h2] at h
    cases hl : ev.loaded <;> simp [hl] at h
  · simp

theorem watchEvent_debounced (w : Watcher) (ev : FsEvent) (hn : ev.nameIsConfig = true)
    (ho : ev.opIsWriteCreateRename = true)
    (hlt : timeSince w.lastUpdate ev.sinceClock < 2 * second) :
    watchEvent w ev = ⟨w, Verdict.debounced, [], true⟩ := by
  unfold watchEvent
  rw [if_pos ⟨hn, ho⟩, if_pos hlt]

theorem acceptedEvents_cons (w : Watcher) (ev : FsEvent) (rest : List FsEvent) :
    acceptedEvents w (ev :: rest) =
      (if (watchEvent w ev).verdict = Verdict.accepted then [ev] else []) ++
        (if (watchEvent w ev).running = true then
          acceptedEvents (watchEvent w ev).watcher rest else []) := by
  simp only [acceptedEvents, watchLoop, List.zip_cons_cons, List.filter_cons]
  by_cases hv : (watchEvent w ev).verdict = Verdict.accepted <;>
    by_cases hr : (watchEvent w ev).running = true <;> simp [hv, hr]

theorem watchLoop_append (w : Watcher) (pre : List FsEvent) (ev : FsEvent)
    (h : ∀ s ∈ watchLoop w pre, s.running = true) :
    watchLoop w (pre ++ [ev]) = watchLoop w pre ++ [watchEvent (watcherAfter w pre) ev] ∧
      (watcherAfter w pre).lastUpdate =
        ((acceptedEvents w pre).getLast?.map FsEvent.nowClock).or w.lastUpdate := by
  induction pre generalizing w with
  | nil => simp [watchLoop, watcherAfter, acceptedEvents]
  | cons e rest ih =>
    have hrun : (watchEvent w e).running = true := h _ (by simp [watchLoop])
    have hrest : ∀ s ∈ watchLoop (watchEvent w e).watcher rest, s.running = true := by
      intro s hs
      exact h s (by simp [watchLoop, hrun, hs])
    obtain ⟨h1, h2⟩ := ih (watchEvent w e).watcher hrest
    constructor
    · show watchLoop w (e :: (rest ++ [ev])) = _
      simp only [watchLoop, hrun, if_true, watcherAfter]
      rw [h1]
      rfl
    · rw [acceptedEvents_cons, if_pos hrun, List.getLast?_append]
      simp only [watcherAfter, h2, watchEvent_lastUpdate]
      cases hl : (acceptedEvents (watchEvent w e).watcher rest).getLast? with
      | some a => simp
      | none =>
        by_cases hv : (watchEvent w e).verdict = Verdict.accepted <;> simp [hv]

theorem acceptedEvents_spaced (w : Watcher) (events : List FsEvent)
    (hclock : clockMonotone events) :
    (∀ t, w.lastUpdate = some t →
      ∀ a ∈ acceptedEvents w events, 2 * second ≤ a.sinceClock - t) ∧
    (acceptedEvents w events).Pairwise (fun a b => 2 * second ≤ b.sinceClock - a.nowClock) := by
  induction events generalizing w with
  | nil => simp [acceptedEvents, watchLoop]
  | cons e rest ih =>
    have he : e.sinceClock ≤ e.nowClock := hclock e (by simp)
    have hs : (0 : Int) ≤ second := by decide
    have hrest : clockMonotone rest := fun x hx => hclock x (by simp [hx])
    obtain ⟨ih1, ih2⟩ := ih (watchEvent w e).watcher hrest
    rw [acceptedEvents_cons]
    by_cases hv : (watchEvent w e).verdict = Verdict.accepted
    · have hlast : (watchEvent w e).watcher.lastUpdate = some e.nowClock := by
        rw [watchEvent_lastUpdate, if_pos hv]
      have hacc := (watchEvent_accepted_iff w e).1 hv
      rw [if_pos hv]
      by_cases hr : (watchEvent w e).running = true
      · rw [if_pos hr]
        constructor
        · intro t ht a ha
          rw [ht, timeSince_lt_iff] at hacc
          rcases List.mem_append.1 ha with h | h
          · have : a = e := by simpa using h
            rw [this]
            omega
          · have := ih1 e.nowClock hlast a h
            omega
        · simp only [List.singleton_append, List.pairwise_cons]
          exact ⟨fun a ha => ih1 e.nowClock hlast a ha, ih2⟩
      · rw [if_neg hr]
        constructor
        · intro t ht a ha
          rw [ht, timeSince_lt_iff] at hacc
          have : a = e := by simpa using ha
          rw [this]
          omega
        · simp
    · obtain ⟨hw, -, hr⟩ := watchEvent_not_accepted w e hv
      rw [if_neg hv, if_pos hr, hw]
      rw [hw] at ih1 ih2
      simpa using ⟨ih1, ih2⟩

/-- C9, as the code has it.  For the watcher started on `config` with the zero
`lastUpdate`, and events that are writes, creates or renames of the config
file: (1) an event handled first is accepted; (2) an event handled after the
events `pre`, all of which left the process running, is accepted iff no event
of `pre` was accepted or at least 2 seconds lie between the clock reading
stored at the last accepted one and the reading of its own debounce test;
(3) an accepted event stores its clock reading and issues one reload, followed,
when `LoadConfig` returns a config (none of whose entries is the bare `<`, and
`SaveConfig` returning whenever it is called), by one `ensureRoleMessage` per
channel of that config in order, after which the process is still running; when
`LoadConfig` ends the process, the reload is the only call; (4) an event that is not accepted changes nothing and issues no
call; (5) with a clock that does not go back, any two accepted events are at
least 2 seconds apart; (6) of two events handled less than 2 seconds apart by
the fresh watcher, exactly the first is accepted, and the second, when it is
handled, is dropped by the debounce test without any call. -/
theorem C9_watchConfig_debounce (config : BotConfig) :
    (∀ ev : FsEvent, ev.nameIsConfig = true → ev.opIsWriteCreateRename = true →
      (watchConfig config [ev]).map Step.verdict = [Verdict.accepted]) ∧
    (∀ (pre : List FsEvent) (ev : FsEvent),
      (∀ s ∈ watchConfig config pre, s.running = true) →
      ev.nameIsConfig = true → ev.opIsWriteCreateRename = true →
      watchConfig config (pre ++ [ev]) =
          watchConfig config pre ++ [watchEvent (watcherAfter ⟨none, config⟩ pre) ev] ∧
        ((watchEvent (watcherAfter ⟨none, config⟩ pre) ev).verdict = Verdict.accepted ↔
          ∀ a, (acceptedEvents ⟨none, config⟩ pre).getLast? = some a →
            2 * second ≤ ev.sinceClock - a.nowClock)) ∧
    (∀ (w : Watcher) (ev : FsEvent), (watchEvent w ev).verdict = Verdict.accepted →
      (watchEvent w ev).watcher.lastUpdate = some ev.nowClock ∧
      (∀ loaded, ev.loaded = some loaded → noBareLt loaded →
        (∀ i, (ev.outcomes i).defaultPath ≠ none) →
        (watchEvent w ev).calls =
            Action.loadConfig :: reconcilePass ev.outcomes loaded.channels.length 0 loaded ∧
          (watchEvent w ev).running = true) ∧
      (ev.loaded = none →
        (watchEvent w ev).calls = [Action.loadConfig] ∧ (watchEvent w ev).running = false)) ∧
    (∀ (w : Watcher) (ev : FsEvent), (watchEvent w ev).verdict ≠ Verdict.accepted →
      (watchEvent w ev).watcher = w ∧ (watchEvent w ev).calls = [] ∧
        (watchEvent w ev).running = true) ∧
    (∀ events : List FsEvent, clockMonotone events →
      (acceptedEvents ⟨none, config⟩ events).Pairwise
        (fun a b => 2 * second ≤ b.sinceClock - a.nowClock)) ∧
    (∀ e1 e2 : FsEvent,
      e1.nameIsConfig = true → e1.opIsWriteCreateRename = true →
      e2.nameIsConfig = true → e2.opIsWriteCreateRename = true →
      e1.sinceClock ≤ e1.nowClock → e2.sinceClock - e1.sinceClock < 2 * second →
      acceptedEvents ⟨none, config⟩ [e1, e2] = [e1] ∧
        ∀ s ∈ (watchConfig config [e1, e2]).drop 1,
          s.verdict = Verdict.debounced ∧ s.calls = []) := by
  have hfirst : ∀ ev : FsEvent, ev.nameIsConfig = true → ev.opIsWriteCreateRename = true →
      (watchEvent ⟨none, config⟩ ev).verdict = Verdict.accepted := by
    intro ev hn ho
    exact (watchEvent_accepted_iff _ ev).2 ⟨⟨hn, ho⟩, timeSince_none _⟩
  refine ⟨?_, ?_, ?_, watchEvent_not_accepted, ?_, ?_⟩
  · intro ev hn ho
    simp [watchConfig, watchLoop, hfirst ev hn ho]
  · intro pre ev hrun hn ho
    obtain ⟨h1, h2⟩ := watchLoop_append ⟨none, config⟩ pre ev hrun
    refine ⟨h1, ?_⟩
    rw [watchEvent_accepted_iff, h2]
    cases hl : (acceptedEvents ⟨none, config⟩ pre).getLast? with
    | none =>
      simp only [Option.map_none', Option.or]
      constructor
      · intro _ a ha
        simp at ha
      · intro _
        exact ⟨⟨hn, ho⟩, timeSince_none _⟩
    | some b =>
      simp only [Option.map_some', Option.or, timeSince_lt_iff]
      constructor
      · rintro ⟨-, hlt⟩ a ha
        have : b = a := by simpa using ha
        rw [← this]
        omega
      · intro h
        have := h b rfl
        exact ⟨⟨hn, ho⟩, by omega⟩
  · intro w ev hv
    have hacc := (watchEvent_accepted_iff w ev).1 hv
    refine ⟨by rw [watchEvent_lastUpdate, if_pos hv], ?_, ?_⟩
    · intro loaded hl hno hsave
      obtain ⟨hc, hp, he⟩ :=
        ensureFrom_of_no_panic ev.outcomes loaded.channels.length 0 loaded hno hsave
      simp only [watchEvent, hacc.1, hacc.2, hl, and_self, if_true, if_false]
      simp [ensureAll, hc, hp, he]
    · intro hl
      simp only [watchEvent, hacc.1, hacc.2, hl, and_self, if_true, if_false]
  · intro events hclock
    exact (acceptedEvents_spaced ⟨none, config⟩ events hclock).2
  · intro e1 e2 hn1 ho1 hn2 ho2 hclock hlt
    have hv1 := hfirst e1 hn1 ho1
    have hlast : (watchEvent ⟨none, config⟩ e1).watcher.lastUpdate = some e1.nowClock := by
      rw [watchEvent_lastUpdate, if_pos hv1]
    have hv2 : (watchEvent (watchEvent ⟨none, config⟩ e1).watcher e2).verdict ≠
        Verdict.accepted := by
      rw [Ne, watchEvent_accepted_iff, hlast, timeSince_lt_iff]
      intro h
      omega
    have hdeb : (watchEvent (watchEvent ⟨none, config⟩ e1).watcher e2).verdict =
        Verdict.debounced := by
      have hlt2 : timeSince (watchEvent ⟨none, config⟩ e1).watcher.lastUpdate e2.sinceClock <
          2 * second := by
        rw [hlast, timeSince_lt_iff]
        omega
      rw [watchEvent_debounced _ e2 hn2 ho2 hlt2]
    constructor
    · rw [acceptedEvents_cons, if_pos hv1]
      by_cases hr : (watchEvent ⟨none, config⟩ e1).running = true
      · rw [if_pos hr, acceptedEvents_cons, if_neg hv2]
        simp [acceptedEvents, watchLoop]
      · rw [if_neg hr]
        rfl
    · intro s hs
      by_cases hr : (watchEvent ⟨none, config⟩ e1).running = true
      · have : s = watchEvent (watchEvent ⟨none, config⟩ e1).watcher e2 := by
          simpa [watchConfig, watchLoop, hr] using hs
        rw [this]
        exact ⟨hdeb, (watchEvent_not_accepted _ e2 hv2).2.1⟩
      · simp [watchConfig, watchLoop, hr] at hs

/-- C9, at three writes of the config file handled 1000 s, 1001 s and 1003 s
after the clock origin: the first is accepted and the second is not, and the
accepted ones are at least 2 seconds apart. -/
theorem C9_watchConfig_debounce_witness :
    acceptedEvents ⟨none, exampleConfig⟩ [firstWrite, secondWrite] = [firstWrite] ∧
      (acceptedEvents ⟨none, exampleConfig⟩ [firstWrite, secondWrite, thirdWrite]).Pairwise
        (fun a b => 2 * second ≤ b.sinceClock - a.nowClock) ∧
      (acceptedEvents ⟨none, exampleConfig⟩ [firstWrite, secondWrite, thirdWrite]).map
        FsEvent.sinceClock = [1000 * second, 1003 * second] ∧
      (watchEvent ⟨none, exampleConfig⟩ firstWrite).calls =
        Action.loadConfig :: reconcilePass firstWrite.outcomes 1 0 freshConfig :=
  ⟨((C9_watchConfig_debounce exampleConfig).2.2.2.2.2 firstWrite secondWrite rfl rfl rfl rfl
      (by decide) (by decide)).1,
    (C9_watchConfig_debounce exampleConfig).2.2.2.2.1 [firstWrite, secondWrite, thirdWrite]
      (by decide),
    by decide,
    (((C9_watchConfig_debounce exampleConfig).2.2.1 ⟨none, exampleConfig⟩ firstWrite
      (by decide)).2.1 freshConfig rfl (by decide) (fun _ => Option.some_ne_none homeConfigPath)).1⟩

/-- C9 as stated fails: of two writes of the config file handled one second
apart, the first is accepted, but `LoadConfig` ends the process; the reload is
the only call, no `ensureRoleMessage` is run for the channel of the config, and
the second write is never handled. -/
theorem C9_watchConfig_fatal_reload :
    fatalWrite.nameIsConfig = true ∧ fatalWrite.opIsWriteCreateRename = true ∧
      secondWrite.nameIsConfig = true ∧ secondWrite.opIsWriteCreateRename = true ∧
      secondWrite.sinceClock - fatalWrite.sinceClock < 2 * second ∧
      exampleConfig.channels.length = 1 ∧
      watchConfig exampleConfig [fatalWrite, secondWrite] =
        [⟨⟨some (1000 * second + 5), exampleConfig⟩, Verdict.accepted, [Action.loadConfig],
          false⟩] := by
  decide

end RoleBot
